import Mathlib

/-!
Verification of the adaptive PDF/image compression subsystem of the
`pdf-backend` repository (`src/pdf_utils.py`), as a shallow embedding.

File sizes are natural numbers (bytes, the value of `os.path.getsize`);
megabyte values are exact rationals (`size / (1024 * 1024)`).  Python's
float arithmetic on these values is exact for all sizes below 2^53 bytes
(division by a power of two and comparison are exact), so modelling the
sizes and targets with `ℚ` is faithful on the whole realistic domain.

I/O-dependent outcomes (what Ghostscript writes at a given resolution,
what a pikepdf save attempt produces, what a JPEG encode of a given
quality weighs) are supplied by environment functions; the control flow
around them is translated line by line from the source.
-/

namespace PdfBackend

/-- `get_mb = lambda p: os.path.getsize(p) / (1024 * 1024)` from
`compress_pdf`, applied to a byte count. -/
def get_mb (n : ℕ) : ℚ := (n : ℚ) / (1024 * 1024)

/-- Contents of the Ghostscript output path (`output_path`): either the
file that existed before the sweep (in `compress_pdf` this is the empty
temporary file created by `NamedTemporaryFile`), or the file written by
the Ghostscript invocation at a recorded resolution.  `none` means the
path does not exist. -/
inductive FileContent where
  | preexisting (size : ℕ)
  | written (dpi : ℕ) (size : ℕ)
deriving DecidableEq, Repr

/-- Byte size of the file at the output path. -/
def FileContent.size : FileContent → ℕ
  | preexisting s => s
  | written _ s => s

/-- Result of `compress_pdf_ghostscript`: the returned boolean, the final
contents of `output_path`, and the list of resolutions at which the
external tool was invoked, in order. -/
structure GsResult where
  success : Bool
  file : Option FileContent
  dpis : List ℕ
deriving DecidableEq, Repr

/-- The resolutions visited by `while current_dpi >= min_dpi:
... current_dpi -= step_dpi` with `min_dpi = 72`, `step_dpi = 25`.
`fuel` bounds the number of iterations; the loop starting at 200 makes
exactly 6 iterations (200, 175, 150, 125, 100, 75), so any fuel ≥ 6
yields the loop's true behaviour. -/
def sweepList : ℕ → ℕ → List ℕ
  | 0, _ => []
  | fuel + 1, dpi => if 72 ≤ dpi then dpi :: sweepList fuel (dpi - 25) else []

/-- The body of `compress_pdf_ghostscript`'s while loop.  At each
resolution the subprocess either fails (`step dpi = none`: the
`CalledProcessError`/`Exception` arms, which leave `output_path`
untouched) or succeeds writing a file of `step dpi = some size` bytes to
`output_path` (after which `os.path.exists` holds).  If the written size
meets `target_bytes` the function returns `True` immediately; when the
loop ends it returns `os.path.exists(output_path)`.  Recursion is on
`fuel`; the fuel-exhausted branch coincides with the loop-exit branch, so
for fuel ≥ 6 from dpi 200 this equals the unbounded while loop. -/
def gsSweep (step : ℕ → Option ℕ) (targetBytes : ℚ) :
    ℕ → ℕ → Option FileContent → GsResult
  | 0, _, file => { success := file.isSome, file := file, dpis := [] }
  | fuel + 1, dpi, file =>
    if 72 ≤ dpi then
      match step dpi with
      | some sz =>
        if (sz : ℚ) ≤ targetBytes then
          { success := true, file := some (.written dpi sz), dpis := [dpi] }
        else
          let r := gsSweep step targetBytes fuel (dpi - 25) (some (.written dpi sz))
          { r with dpis := dpi :: r.dpis }
      | none =>
        let r := gsSweep step targetBytes fuel (dpi - 25) file
        { r with dpis := dpi :: r.dpis }
    else { success := file.isSome, file := file, dpis := [] }

/-- `compress_pdf_ghostscript(input_path, output_path, target_size_mb)`.
`avail` models `get_ghostscript_command()` finding a binary; when it does
not, the function returns `False` without touching `output_path`.
`outFile` is the prior state of `output_path`.  `target_bytes =
target_size_mb * 1024 * 1024`; the sweep starts at 200 DPI. -/
def compress_pdf_ghostscript (avail : Bool) (step : ℕ → Option ℕ)
    (outFile : Option FileContent) (target_size_mb : ℚ) : GsResult :=
  if avail then gsSweep step (target_size_mb * 1024 * 1024) 6 200 outFile
  else { success := false, file := outFile, dpis := [] }

/-- The file left at `output_path` after attempting the given resolutions
in order, starting from contents `acc`: each successful invocation
overwrites the path, each failed one leaves it alone. -/
def lastWrite (step : ℕ → Option ℕ) : List ℕ → Option FileContent → Option FileContent
  | [], acc => acc
  | d :: rest, acc =>
    match step d with
    | some sz => lastWrite step rest (some (.written d sz))
    | none => lastWrite step rest acc

/-- The invocation at resolution `d` does not produce a file meeting
`tb` bytes (it either fails or writes something larger). -/
def stepMisses (step : ℕ → Option ℕ) (tb : ℚ) (d : ℕ) : Prop :=
  match step d with
  | some sz => ¬((sz : ℚ) ≤ tb)
  | none => True

instance (step : ℕ → Option ℕ) (tb : ℚ) (d : ℕ) : Decidable (stepMisses step tb d) := by
  unfold stepMisses
  cases step d with
  | none => exact isTrue trivial
  | some sz => exact inferInstance

/-- A pass performed by the orchestrator `compress_pdf`.  `structural`
is a lossless structural re-serialization pass performed on its own; it
is part of the vocabulary so that the spec's claim about such a pass can
be stated, but `compress_pdf` never emits it.  `externalTool` is the
Ghostscript sweep; `downsample i` is the pikepdf attempt with
`attempts[i]` (a lossy image-downsampling pass). -/
inductive Pass where
  | structural
  | externalTool
  | downsample (idx : ℕ)
deriving DecidableEq, Repr

/-- The environment `compress_pdf` runs in: whether Ghostscript is on the
PATH, what each Ghostscript invocation produces (per resolution), and the
byte size of the file each pikepdf attempt saves (per attempt index;
`none` is the `except Exception: pass` arm). -/
structure CompressEnv where
  gsAvail : Bool
  gsStep : ℕ → Option ℕ
  attempt : ℕ → Option ℕ

/-- The `attempts` table of `(scale_factor, quality)` pairs in
`compress_pdf`. -/
def attempts : List (ℚ × ℕ) :=
  [(1.0, 95), (1.0, 90), (1.0, 85), (1.0, 80),
   (1.0, 75), (1.0, 70), (0.9, 70), (0.85, 70),
   (0.8, 70), (0.8, 65), (0.8, 60), (0.75, 60),
   (0.7, 60), (0.65, 60), (0.6, 60), (0.55, 55),
   (0.5, 50), (0.45, 50), (0.4, 50), (0.35, 45),
   (0.3, 40), (0.25, 40)]

/-- What `compress_pdf` leaves at `output_path`, together with the
candidate files it produced and measured along the way (in order), the
attempt indices it ran, the pass trace, and whether the Ghostscript
result was adopted as the working baseline. -/
structure CompressResult where
  output : ℕ
  produced : List ℕ
  scanned : List ℕ
  trace : List Pass
  baselineGs : Bool
deriving DecidableEq, Repr

/-- The `for i in range(start_index, len(attempts))` loop of
`compress_pdf` over the remaining index list.  Carries `min_size` (MB)
and the current best attempt file; returns the final best file, the list
of attempt file sizes produced (bytes, in order), and the indices
actually attempted.  An improving attempt that meets the target breaks
out of the loop. -/
def iterLoop (attempt : ℕ → Option ℕ) (targetMb : ℚ) :
    List ℕ → ℚ → Option ℕ → Option ℕ × List ℕ × List ℕ
  | [], _, best => (best, [], [])
  | i :: rest, minSize, best =>
    match attempt i with
    | none =>
      let r := iterLoop attempt targetMb rest minSize best
      (r.1, r.2.1, i :: r.2.2)
    | some newSize =>
      if get_mb newSize < minSize then
        if get_mb newSize ≤ targetMb then (some newSize, [newSize], [i])
        else
          let r := iterLoop attempt targetMb rest (get_mb newSize) (some newSize)
          (r.1, newSize :: r.2.1, i :: r.2.2)
      else
        let r := iterLoop attempt targetMb rest minSize best
        (r.1, newSize :: r.2.1, i :: r.2.2)

/-- Phase 2 of `compress_pdf` (the pikepdf iterative refinement plus the
finalization): computes `start_index` from `current_size / target`, runs
the attempt loop from the fixed baseline, then moves the best temp file
to `output_path`, or else the baseline (the Ghostscript result when it
was adopted, otherwise a copy of the original). -/
def runIterative (attempt : ℕ → Option ℕ) (target : ℚ) (baseline : ℕ)
    (baselineGs : Bool) (producedPre : List ℕ) (gsTrace : List Pass) : CompressResult :=
  let currentSize := get_mb baseline
  let startIndex : ℕ :=
    if currentSize / target > 5.0 then 9
    else if currentSize / target > 2.0 then 3
    else 0
  let r := iterLoop attempt target ((List.range attempts.length).drop startIndex) currentSize none
  { output :=
      match r.1 with
      | some b => b
      | none => baseline
    produced := producedPre ++ r.2.1
    scanned := r.2.2
    trace := gsTrace ++ r.2.2.map Pass.downsample
    baselineGs := baselineGs }

/-- `compress_pdf(input_path, output_path, target_size_mb)`.  The default
target is 75% of the original size.  The Ghostscript sweep runs first,
writing into a fresh `NamedTemporaryFile` (which exists, empty, before
the sweep: `some (FileContent.preexisting 0)`).  Its result is adopted
as the working baseline only when strictly smaller than the original,
and returned immediately when it additionally meets the target;
otherwise the pikepdf iterative phase runs from the baseline. -/
def compress_pdf (env : CompressEnv) (original : ℕ) (target_size_mb : Option ℚ) :
    CompressResult :=
  let originalMb := get_mb original
  let target := target_size_mb.getD (originalMb * 0.75)
  let gsr := compress_pdf_ghostscript env.gsAvail env.gsStep
    (some (FileContent.preexisting 0)) target
  let gsTrace : List Pass := if env.gsAvail then [Pass.externalTool] else []
  match gsr.file, gsr.success with
  | some fc, true =>
    if get_mb fc.size < originalMb then
      if get_mb fc.size ≤ target then
        { output := fc.size, produced := [fc.size], scanned := [],
          trace := gsTrace, baselineGs := true }
      else runIterative env.attempt target fc.size true [fc.size] gsTrace
    else runIterative env.attempt target original false [fc.size] gsTrace
  | _, _ => runIterative env.attempt target original false [] gsTrace

/-- The quality loop of `compress_image`: `while quality >= min_quality`
with `min_quality = 10`, `step = 5`; the image is saved at the current
quality, the function returns if the written size meets the target, and
otherwise quality drops by 5.  `save q` is the byte size of the JPEG
encoding at quality `q`.  Returns the quality of the file left at
`output_path` and the list of qualities written, in order; the trailing
entry corresponds to the unconditional `img.save` after the loop.
Recursion is on `fuel`; quality falls below 10 after at most 16
iterations from 85, so any fuel ≥ 16 gives the loop's true behaviour
(the fuel-exhausted branch coincides with the loop-exit branch). -/
def ciLoop (save : ℕ → ℕ) (targetBytes : ℚ) : ℕ → ℕ → List ℕ → ℕ × List ℕ
  | 0, q, writes => (q, writes ++ [q])
  | fuel + 1, q, writes =>
    if 10 ≤ q then
      if (save q : ℚ) ≤ targetBytes then (q, writes ++ [q])
      else ciLoop save targetBytes fuel (q - 5) (writes ++ [q])
    else (q, writes ++ [q])

/-- `compress_image(input_path, output_path, target_size_mb)` on the
success path (the image decodes; `save q` is the size of its JPEG
encoding at quality `q`).  `if target_size_mb:` is Python truthiness, so
`None` and `0.0` both skip the loop and save once at the starting
quality 85. -/
def compress_image (save : ℕ → ℕ) (target_size_mb : Option ℚ) : ℕ × List ℕ :=
  match target_size_mb with
  | some t => if t = 0 then (85, [85]) else ciLoop save (t * 1024 * 1024) 85 85 []
  | none => (85, [85])

/-- An embedded image as `_downsample_images` sees it: the PIL
dimensions, whether its mode is `'L'` (grayscale), and whether the whole
`try` body succeeds on it (`pikepdf.PdfImage`/`as_pil_image`/resize/JPEG
encode raising is the `except Exception: continue` arm). -/
structure SrcImage where
  width : ℕ
  height : ℕ
  gray : Bool
  decodable : Bool
deriving DecidableEq, Repr

/-- `int(dim * scale_factor)` of the source.  Python `int()` truncates
toward zero; for the nonnegative products arising from a nonnegative
scale this is the floor, and for a negative product both the truncation
and the floor are negative, so both map to the same natural number 0
under the subsequent `< 10` comparison — `Int.toNat ∘ Int.floor` is
faithful for every scale. -/
def newDim (d : ℕ) (scale : ℚ) : ℕ := (⌊(d : ℚ) * scale⌋).toNat

/-- Outcome of the per-image body of `_downsample_images`: either the
image is left untouched (decode failure, or a new dimension below 10
pixels), or it is replaced by a freshly encoded JPEG stream with the
recorded dimensions, color space and quality. -/
inductive ResampleOut where
  | unchanged
  | replaced (width height : ℕ) (gray : Bool) (quality : ℕ)
deriving DecidableEq, Repr

/-- The per-image processing of `_downsample_images` (decode, compute
`new_width = int(width * scale_factor)` and `new_height` likewise, skip
if either is below 10, normalize the color space, resize, JPEG-encode at
`quality`). -/
def resampleImage (img : SrcImage) (scale : ℚ) (quality : ℕ) : ResampleOut :=
  if img.decodable = false then .unchanged
  else if newDim img.width scale < 10 ∨ newDim img.height scale < 10 then .unchanged
  else .replaced (newDim img.width scale) (newDim img.height scale) img.gray quality

/-- Stable object identity of a PDF object (`raw_image.objgen`). -/
abbrev ObjGen := ℕ

/-- A document and parameters as `_downsample_images` consumes them:
pages are lists of XObject references (by objgen, in resource-dictionary
order), `store` gives the image behind each objgen, `isImage` is the
`Subtype == "/Image"` test. -/
structure DsCfg where
  store : ObjGen → SrcImage
  isImage : ObjGen → Bool
  scale : ℚ
  quality : ℕ

/-- What an XObject slot in a page's resource dictionary points at after
the pass: the original object, or a replacement stream by id. -/
inductive Slot where
  | orig (g : ObjGen)
  | repl (sid : ℕ)
deriving DecidableEq, Repr

/-- A replacement stream built by `pikepdf.Stream(...)`: its id, declared
`Width`/`Height`, whether `ColorSpace` is `/DeviceGray`, and the JPEG
quality used. -/
structure NewStream where
  sid : ℕ
  width : ℕ
  height : ℕ
  gray : Bool
  quality : ℕ
deriving DecidableEq, Repr

/-- The mutable state threaded through one `_downsample_images` call:
the `seen_images` map (objgen → replacement stream id), the streams
created so far, the next fresh stream id, the `count` of changed images,
and the log of objgens actually re-encoded (one entry per JPEG encode). -/
structure PassState where
  seen : List (ObjGen × ℕ)
  streams : List NewStream
  nextSid : ℕ
  count : ℕ
  encodes : List ObjGen
deriving DecidableEq, Repr

/-- The empty state at the start of a pass (`seen_images = {}`). -/
def passInit : PassState := ⟨[], [], 0, 0, []⟩

/-- Lookup in the `seen_images` dict. -/
def seenLookup : List (ObjGen × ℕ) → ObjGen → Option ℕ
  | [], _ => none
  | (k, v) :: rest, g => if g = k then some v else seenLookup rest g

/-- Processing of one XObject reference by `_downsample_images`:
non-images are skipped; an objgen already in `seen_images` is repointed
to the cached stream; otherwise the image is resampled and, on success,
a fresh stream is created, registered under the objgen, and the slot is
repointed to it. -/
def processRef (cfg : DsCfg) (st : PassState) (g : ObjGen) : PassState × Slot :=
  if cfg.isImage g = false then (st, .orig g)
  else
    match seenLookup st.seen g with
    | some sid => (st, .repl sid)
    | none =>
      match resampleImage (cfg.store g) cfg.scale cfg.quality with
      | .unchanged => (st, .orig g)
      | .replaced w h gr q =>
        ({ seen := (g, st.nextSid) :: st.seen,
           streams := st.streams ++ [⟨st.nextSid, w, h, gr, q⟩],
           nextSid := st.nextSid + 1,
           count := st.count + 1,
           encodes := st.encodes ++ [g] }, .repl st.nextSid)

/-- The inner `for name in keys:` loop over one page's XObject
references, returning the final state and each reference paired with the
slot it ends up pointing at. -/
def processRefs (cfg : DsCfg) : List ObjGen → PassState → PassState × List (ObjGen × Slot)
  | [], st => (st, [])
  | g :: rest, st =>
    let r := processRef cfg st g
    let rr := processRefs cfg rest r.1
    (rr.1, (g, r.2) :: rr.2)

/-- `_downsample_images(pdf, scale_factor, quality)`: the outer
`for page in pdf.pages:` loop, threading `seen_images` through all
pages. -/
def _downsample_images (cfg : DsCfg) :
    List (List ObjGen) → PassState → PassState × List (List (ObjGen × Slot))
  | [], st => (st, [])
  | pg :: rest, st =>
    let r := processRefs cfg pg st
    let rr := _downsample_images cfg rest r.1
    (rr.1, r.2 :: rr.2)

/-- The megabyte size of the file the attempt loop would finalize given
its returned best candidate, falling back to the baseline size `m`. -/
def outMb : Option ℕ → ℚ → ℚ
  | some b, _ => get_mb b
  | none, m => m

/-- The slot a reference to `g` may legitimately end up in after a pass:
non-images and images whose resampling is skipped keep the original
object; an image whose resampling succeeds points at the stream
registered for `g` in `seen_images`. -/
def slotOk (cfg : DsCfg) (st : PassState) (g : ObjGen) (s : Slot) : Prop :=
  if cfg.isImage g = true then
    match resampleImage (cfg.store g) cfg.scale cfg.quality with
    | .unchanged => s = .orig g
    | .replaced _ _ _ _ => ∃ sid, seenLookup st.seen g = some sid ∧ s = .repl sid
  else s = .orig g

/-- Invariant of the `_downsample_images` state: each objgen registered
in `seen_images` has been JPEG-encoded exactly once and its registered
stream carries exactly the data `resampleImage` produced for it;
unregistered objgens have never been encoded; and every reference
processed so far sits in a legitimate slot. -/
def Inv (cfg : DsCfg) (st : PassState) (pairs : List (ObjGen × Slot)) : Prop :=
  (∀ g sid, seenLookup st.seen g = some sid →
    (∃ w h gr q, resampleImage (cfg.store g) cfg.scale cfg.quality = .replaced w h gr q ∧
      (⟨sid, w, h, gr, q⟩ : NewStream) ∈ st.streams) ∧ st.encodes.count g = 1)
  ∧ (∀ g, seenLookup st.seen g = none → st.encodes.count g = 0)
  ∧ (∀ p ∈ pairs, slotOk cfg st p.1 p.2)

/-! ## Helper lemmas -/

lemma get_mb_le_iff {a b : ℕ} : get_mb a ≤ get_mb b ↔ a ≤ b := by
  unfold get_mb
  rw [div_le_div_iff_of_pos_right (by norm_num : (0 : ℚ) < 1024 * 1024)]
  exact_mod_cast Iff.rfl

lemma get_mb_lt_iff {a b : ℕ} : get_mb a < get_mb b ↔ a < b := by
  unfold get_mb
  rw [div_lt_div_iff_of_pos_right (by norm_num : (0 : ℚ) < 1024 * 1024)]
  exact_mod_cast Iff.rfl

/-- The returned boolean of the sweep is exactly the existence of the
output file. -/
lemma gsSweep_success_eq (step : ℕ → Option ℕ) (tb : ℚ) :
    ∀ (fuel dpi : ℕ) (file : Option FileContent),
      (gsSweep step tb fuel dpi file).success = (gsSweep step tb fuel dpi file).file.isSome := by
  intro fuel
  induction fuel with
  | zero => intro dpi file; rfl
  | succ fuel ih =>
    intro dpi file
    simp only [gsSweep]
    split
    · cases hs : step dpi with
      | none => simpa using ih (dpi - 25) file
      | some sz =>
        by_cases hle : (sz : ℚ) ≤ tb
        · simp [hle]
        · simpa [hle] using ih (dpi - 25) (some (.written dpi sz))
    · rfl

/-- When no visited resolution produces a file meeting the target, the
sweep visits every resolution of `sweepList`, leaves the last successful
write (if any) at the output path, and reports its existence. -/
lemma gsSweep_no_target (step : ℕ → Option ℕ) (tb : ℚ) :
    ∀ (fuel dpi : ℕ) (file : Option FileContent),
      (∀ d ∈ sweepList fuel dpi, stepMisses step tb d) →
      gsSweep step tb fuel dpi file =
        { success := (lastWrite step (sweepList fuel dpi) file).isSome,
          file := lastWrite step (sweepList fuel dpi) file,
          dpis := sweepList fuel dpi } := by
  intro fuel
  induction fuel with
  | zero => intro dpi file _; rfl
  | succ fuel ih =>
    intro dpi file hmiss
    by_cases hdpi : 72 ≤ dpi
    · have hmem : dpi ∈ sweepList (fuel + 1) dpi := by
        simp [sweepList, hdpi]
      have hmiss' : ∀ d ∈ sweepList fuel (dpi - 25), stepMisses step tb d := by
        intro d hd
        exact hmiss d (by simp [sweepList, hdpi, hd])
      cases hs : step dpi with
      | none =>
        have := hmiss dpi hmem
        simp only [gsSweep, if_pos hdpi, hs]
        rw [ih (dpi - 25) file hmiss']
        simp [sweepList, hdpi, lastWrite, hs]
      | some sz =>
        have hm := hmiss dpi hmem
        rw [stepMisses, hs] at hm
        simp only [gsSweep, if_pos hdpi, hs, if_neg hm]
        rw [ih (dpi - 25) (some (.written dpi sz)) hmiss']
        simp [sweepList, hdpi, lastWrite, hs]
    · simp [gsSweep, hdpi, sweepList, lastWrite]

/-- The list of visited resolutions is always a prefix of the full
sweep list. -/
lemma gsSweep_dpis_prefix (step : ℕ → Option ℕ) (tb : ℚ) :
    ∀ (fuel dpi : ℕ) (file : Option FileContent),
      (gsSweep step tb fuel dpi file).dpis <+: sweepList fuel dpi := by
  intro fuel
  induction fuel with
  | zero => intro dpi file; simp [gsSweep, sweepList]
  | succ fuel ih =>
    intro dpi file
    by_cases hdpi : 72 ≤ dpi
    · cases hs : step dpi with
      | none =>
        simp only [gsSweep, if_pos hdpi, hs, sweepList]
        obtain ⟨t, ht⟩ := ih (dpi - 25) file
        exact ⟨t, by simp [hdpi, ht]⟩
      | some sz =>
        by_cases hle : (sz : ℚ) ≤ tb
        · simp only [gsSweep, if_pos hdpi, hs, if_pos hle, sweepList]
          exact ⟨sweepList fuel (dpi - 25), by simp [hdpi]⟩
        · simp only [gsSweep, if_pos hdpi, hs, if_neg hle, sweepList]
          obtain ⟨t, ht⟩ := ih (dpi - 25) (some (.written dpi sz))
          exact ⟨t, by simp [hdpi, ht]⟩
    · simp [gsSweep, hdpi, sweepList]

lemma sweepList_full : sweepList 6 200 = [200, 175, 150, 125, 100, 75] := by decide

/-- Behaviour of the attempt loop: the finalized size never exceeds the
baseline, never exceeds any attempt file produced during the loop, the
best candidate (when present) is one of the produced files, and no more
indices are attempted than were scheduled. -/
lemma iterLoop_spec (att : ℕ → Option ℕ) (t : ℚ) :
    ∀ (idxs : List ℕ) (m : ℚ) (best : Option ℕ),
      (∀ b, best = some b → get_mb b = m) →
      (∀ b, (iterLoop att t idxs m best).1 = some b →
          get_mb b ≤ m ∧ (b ∈ (iterLoop att t idxs m best).2.1 ∨ best = some b))
      ∧ ((iterLoop att t idxs m best).1 = none → best = none)
      ∧ (∀ p ∈ (iterLoop att t idxs m best).2.1,
          outMb (iterLoop att t idxs m best).1 m ≤ get_mb p)
      ∧ (iterLoop att t idxs m best).2.2.length ≤ idxs.length := by
  intro idxs
  induction idxs with
  | nil =>
    intro m best hinv
    refine ⟨?_, ?_, ?_, ?_⟩ <;> simp [iterLoop]
    intro b hb
    exact ⟨le_of_eq (hinv b hb), hb⟩
  | cons i rest ih =>
    intro m best hinv
    cases hai : att i with
    | none =>
      obtain ⟨ih1, ih2, ih3, ih4⟩ := ih m best hinv
      simp only [iterLoop, hai]
      exact ⟨fun b hb => (ih1 b hb), ih2, ih3, by simpa using Nat.succ_le_succ ih4⟩
    | some n =>
      by_cases himp : get_mb n < m
      · by_cases htgt : get_mb n ≤ t
        · simp only [iterLoop, hai, if_pos himp, if_pos htgt]
          refine ⟨?_, ?_, ?_, ?_⟩
          · intro b hb
            obtain rfl : n = b := by simpa using hb
            exact ⟨le_of_lt himp, Or.inl (by simp)⟩
          · intro h; simp at h
          · intro p hp
            obtain rfl : p = n := by simpa using hp
            simp [outMb]
          · simp
        · obtain ⟨ih1, ih2, ih3, ih4⟩ := ih (get_mb n) (some n)
            (fun b hb => by
              obtain rfl : n = b := by simpa using hb
              rfl)
          simp only [iterLoop, hai, if_pos himp, if_neg htgt]
          have hbest : (iterLoop att t rest (get_mb n) (some n)).1.isSome := by
            cases hr : (iterLoop att t rest (get_mb n) (some n)).1 with
            | none => exact absurd (ih2 hr) (by simp)
            | some b => simp
          refine ⟨?_, ?_, ?_, ?_⟩
          · intro b hb
            obtain ⟨hble, hbmem⟩ := ih1 b hb
            refine ⟨le_of_lt (lt_of_le_of_lt hble himp), Or.inl ?_⟩
            rcases hbmem with hm | hm
            · simp [hm]
            · obtain rfl : n = b := by simpa using hm
              simp
          · intro h
            rw [h] at hbest; simp at hbest
          · intro p hp
            rcases hr : (iterLoop att t rest (get_mb n) (some n)).1 with _ | b
            · rw [hr] at hbest; simp at hbest
            · obtain ⟨hble, _⟩ := ih1 b hr
              simp only [List.mem_cons] at hp
              rcases hp with rfl | hp
              · simpa [outMb, hr] using hble
              · have := ih3 p hp
                rw [hr] at this
                simpa [outMb, hr] using this
          · simpa using Nat.succ_le_succ ih4
      · obtain ⟨ih1, ih2, ih3, ih4⟩ := ih m best hinv
        simp only [iterLoop, hai, if_neg himp]
        refine ⟨?_, ?_, ?_, ?_⟩
        · intro b hb
          obtain ⟨hble, hbmem⟩ := ih1 b hb
          refine ⟨hble, ?_⟩
          rcases hbmem with hm | hm
          · exact Or.inl (by simp [hm])
          · exact Or.inr hm
        · exact ih2
        · intro p hp
          simp only [List.mem_cons] at hp
          rcases hp with rfl | hp
          · rcases hr : (iterLoop att t rest m best).1 with _ | b
            · simpa [outMb, hr] using le_of_not_lt himp
            · obtain ⟨hble, _⟩ := ih1 b hr
              simp only [outMb, hr]
              exact le_trans hble (le_of_not_lt himp)
          · have := ih3 p hp
            rcases hr : (iterLoop att t rest m best).1 with _ | b <;>
              · rw [hr] at this; simpa [outMb, hr] using this
        · simpa using Nat.succ_le_succ ih4

/-- The facts about phase 2 of `compress_pdf` that the orchestrator
claims rest on, provided every pre-produced candidate is at least as
large as the baseline. -/
lemma runIterative_facts (att : ℕ → Option ℕ) (t : ℚ) (baseline : ℕ) (bg : Bool)
    (pre : List ℕ) (gtr : List Pass)
    (hpre : ∀ p ∈ pre, baseline ≤ p) :
    (runIterative att t baseline bg pre gtr).output ≤ baseline
    ∧ (∀ p ∈ (runIterative att t baseline bg pre gtr).produced,
        (runIterative att t baseline bg pre gtr).output ≤ p)
    ∧ ((runIterative att t baseline bg pre gtr).output = baseline
        ∨ (runIterative att t baseline bg pre gtr).output
            ∈ (runIterative att t baseline bg pre gtr).produced)
    ∧ (runIterative att t baseline bg pre gtr).scanned.length ≤ attempts.length
    ∧ (runIterative att t baseline bg pre gtr).baselineGs = bg
    ∧ (runIterative att t baseline bg pre gtr).trace
        = gtr ++ (runIterative att t baseline bg pre gtr).scanned.map Pass.downsample := by
  have hspec := iterLoop_spec att t
    ((List.range attempts.length).drop
      (if get_mb baseline / t > 5.0 then 9 else if get_mb baseline / t > 2.0 then 3 else 0))
    (get_mb baseline) none (by intro b hb; cases hb)
  obtain ⟨h1, _h2, h3, h4⟩ := hspec
  simp only [runIterative]
  rcases hr : (iterLoop att t
      ((List.range attempts.length).drop
        (if get_mb baseline / t > 5.0 then 9 else if get_mb baseline / t > 2.0 then 3 else 0))
      (get_mb baseline) none).1 with _ | b
  · refine ⟨by simp [hr], ?_, by simp [hr], ?_, by simp, by simp⟩
    · intro p hp
      simp only [hr]
      simp only [List.mem_append] at hp
      rcases hp with hp | hp
      · exact hpre p hp
      · have := h3 p hp
        rw [hr] at this
        simpa [outMb, get_mb_le_iff] using this
    · simpa using le_trans h4 (by simp)
  · have hble : get_mb b ≤ get_mb baseline := (h1 b hr).1
    refine ⟨by simpa [hr, get_mb_le_iff] using hble, ?_, ?_, ?_, by simp, by simp⟩
    · intro p hp
      simp only [hr]
      simp only [List.mem_append] at hp
      rcases hp with hp | hp
      · exact le_trans (get_mb_le_iff.mp hble) (hpre p hp)
      · have := h3 p hp
        rw [hr] at this
        simpa [outMb, get_mb_le_iff] using this
    · right
      rcases (h1 b hr).2 with hm | hm
      · simp [hr, hm]
      · cases hm
    · simpa using le_trans h4 (by simp)

/-- A legitimate slot stays legitimate when `seen_images` only grows. -/
lemma slotOk_mono (cfg : DsCfg) {st st' : PassState}
    (hseen : ∀ g sid, seenLookup st.seen g = some sid → seenLookup st'.seen g = some sid)
    {g : ObjGen} {s : Slot} (h : slotOk cfg st g s) : slotOk cfg st' g s := by
  unfold slotOk at h ⊢
  by_cases himg : cfg.isImage g = true
  · rw [if_pos himg] at h ⊢
    cases hres : resampleImage (cfg.store g) cfg.scale cfg.quality with
    | unchanged => simp only [hres] at h ⊢; exact h
    | replaced w hh gr q =>
      simp only [hres] at h ⊢
      obtain ⟨sid, hsid, hs⟩ := h
      exact ⟨sid, hseen g sid hsid, hs⟩
  · rw [if_neg himg] at h ⊢
    exact h

/-- Processing one reference preserves the pass invariant and appends a
legitimate slot for the reference. -/
lemma processRef_inv (cfg : DsCfg) (st : PassState) (g : ObjGen)
    (pairs : List (ObjGen × Slot)) (hInv : Inv cfg st pairs) :
    Inv cfg (processRef cfg st g).1 (pairs ++ [(g, (processRef cfg st g).2)]) := by
  obtain ⟨h1, h2, h3⟩ := hInv
  by_cases himg : cfg.isImage g = false
  · have hstep : processRef cfg st g = (st, .orig g) := by
      simp [processRef, himg]
    rw [hstep]
    refine ⟨h1, h2, ?_⟩
    intro p hp
    simp only [List.mem_append, List.mem_singleton] at hp
    rcases hp with hp | rfl
    · exact h3 p hp
    · simp [slotOk, himg]
  · rw [Bool.not_eq_false] at himg
    cases hlk : seenLookup st.seen g with
    | some sid =>
      have hstep : processRef cfg st g = (st, .repl sid) := by
        simp [processRef, himg, hlk]
      rw [hstep]
      refine ⟨h1, h2, ?_⟩
      intro p hp
      simp only [List.mem_append, List.mem_singleton] at hp
      rcases hp with hp | rfl
      · exact h3 p hp
      · obtain ⟨⟨w, hh, gr, q, hres, _⟩, _⟩ := h1 g sid hlk
        simp only [slotOk, if_pos himg, hres]
        exact ⟨sid, hlk, rfl⟩
    | none =>
      cases hres : resampleImage (cfg.store g) cfg.scale cfg.quality with
      | unchanged =>
        have hstep : processRef cfg st g = (st, .orig g) := by
          simp [processRef, himg, hlk, hres]
        rw [hstep]
        refine ⟨h1, h2, ?_⟩
        intro p hp
        simp only [List.mem_append, List.mem_singleton] at hp
        rcases hp with hp | rfl
        · exact h3 p hp
        · simp [slotOk, himg, hres]
      | replaced w hh gr q =>
        have hstep : processRef cfg st g =
            ({ seen := (g, st.nextSid) :: st.seen,
               streams := st.streams ++ [⟨st.nextSid, w, hh, gr, q⟩],
               nextSid := st.nextSid + 1,
               count := st.count + 1,
               encodes := st.encodes ++ [g] }, .repl st.nextSid) := by
          simp [processRef, himg, hlk, hres]
        rw [hstep]
        have hseen : ∀ g' sid, seenLookup st.seen g' = some sid →
            seenLookup ((g, st.nextSid) :: st.seen) g' = some sid := by
          intro g' sid hsid
          have hne : g' ≠ g := fun he => by rw [he, hlk] at hsid; cases hsid
          simpa [seenLookup, hne] using hsid
        refine ⟨?_, ?_, ?_⟩
        · intro g' sid hsid
          by_cases hg : g' = g
          · subst hg
            simp only [seenLookup, if_pos rfl] at hsid
            obtain rfl : st.nextSid = sid := by simpa using hsid
            refine ⟨⟨w, hh, gr, q, hres, by simp⟩, ?_⟩
            simp [List.count_append, h2 g' hlk]
          · simp only [seenLookup, if_neg hg] at hsid
            obtain ⟨⟨w', h', gr', q', hres', hmem⟩, hcnt⟩ := h1 g' sid hsid
            refine ⟨⟨w', h', gr', q', hres', by simp [hmem]⟩, ?_⟩
            simp [List.count_append, List.count_cons, hcnt, Ne.symm hg]
        · intro g' hsid
          by_cases hg : g' = g
          · subst hg; simp [seenLookup] at hsid
          · simp only [seenLookup, if_neg hg] at hsid
            simp [List.count_append, List.count_cons, h2 g' hsid, Ne.symm hg]
        · intro p hp
          simp only [List.mem_append, List.mem_singleton] at hp
          rcases hp with hp | rfl
          · exact slotOk_mono cfg hseen (h3 p hp)
          · simp only [slotOk, if_pos himg, hres]
            exact ⟨st.nextSid, by simp [seenLookup], rfl⟩

/-- `seen_images` only grows across one reference. -/
lemma processRef_seen_mono (cfg : DsCfg) (st : PassState) (g : ObjGen) :
    ∀ g' sid, seenLookup st.seen g' = some sid →
      seenLookup (processRef cfg st g).1.seen g' = some sid := by
  intro g' sid hsid
  unfold processRef
  split
  · exact hsid
  · cases hlk : seenLookup st.seen g with
    | some s => simp only [hlk]; exact hsid
    | none =>
      simp only [hlk]
      cases hres : resampleImage (cfg.store g) cfg.scale cfg.quality with
      | unchanged => exact hsid
      | replaced w hh gr q =>
        have hne : g' ≠ g := fun he => by rw [he, hlk] at hsid; cases hsid
        simpa [seenLookup, hne] using hsid

/-- The inner reference loop preserves the invariant; the slots it
returns are aligned with the references, in order. -/
lemma processRefs_inv (cfg : DsCfg) :
    ∀ (refs : List ObjGen) (st : PassState) (pairs : List (ObjGen × Slot)),
      Inv cfg st pairs →
      Inv cfg (processRefs cfg refs st).1 (pairs ++ (processRefs cfg refs st).2)
      ∧ (processRefs cfg refs st).2.map Prod.fst = refs
      ∧ (∀ g' sid, seenLookup st.seen g' = some sid →
          seenLookup (processRefs cfg refs st).1.seen g' = some sid) := by
  intro refs
  induction refs with
  | nil =>
    intro st pairs hInv
    refine ⟨by simpa [processRefs] using hInv, by simp [processRefs], ?_⟩
    intro g' sid h
    simpa [processRefs] using h
  | cons g rest ih =>
    intro st pairs hInv
    have hone := processRef_inv cfg st g pairs hInv
    obtain ⟨ihInv, ihMap, ihSeen⟩ :=
      ih (processRef cfg st g).1 (pairs ++ [(g, (processRef cfg st g).2)]) hone
    refine ⟨?_, ?_, ?_⟩
    · simpa [processRefs, List.append_assoc] using ihInv
    · simp [processRefs, ihMap]
    · intro g' sid h
      simpa [processRefs] using ihSeen g' sid (processRef_seen_mono cfg st g g' sid h)

/-- The whole pass (`_downsample_images`) preserves the invariant; the
flattened slots are aligned with the flattened page references. -/
lemma downsample_inv (cfg : DsCfg) :
    ∀ (pages : List (List ObjGen)) (st : PassState) (pairs : List (ObjGen × Slot)),
      Inv cfg st pairs →
      Inv cfg (_downsample_images cfg pages st).1
        (pairs ++ ((_downsample_images cfg pages st).2).flatten)
      ∧ ((_downsample_images cfg pages st).2).flatten.map Prod.fst = pages.flatten := by
  intro pages
  induction pages with
  | nil =>
    intro st pairs hInv
    exact ⟨by simpa [_downsample_images] using hInv, by simp [_downsample_images]⟩
  | cons pg rest ih =>
    intro st pairs hInv
    obtain ⟨hInv1, hMap1, _⟩ := processRefs_inv cfg pg st pairs hInv
    obtain ⟨hInv2, hMap2⟩ :=
      ih (processRefs cfg pg st).1 (pairs ++ (processRefs cfg pg st).2) hInv1
    refine ⟨?_, ?_⟩
    · simpa [_downsample_images, List.append_assoc] using hInv2
    · simp [_downsample_images, hMap1, hMap2]

/-- The invariant holds at the start of a pass. -/
lemma inv_init (cfg : DsCfg) : Inv cfg passInit [] := by
  refine ⟨?_, ?_, ?_⟩
  · intro g sid h; cases h
  · intro g _; simp [passInit]
  · intro p hp; cases hp

/-- With Ghostscript available, the sweep's returned boolean is the
existence of the output file. -/
lemma compress_pdf_ghostscript_success_eq (step : ℕ → Option ℕ) (f : Option FileContent)
    (t : ℚ) :
    (compress_pdf_ghostscript true step f t).success
      = (compress_pdf_ghostscript true step f t).file.isSome := by
  unfold compress_pdf_ghostscript
  rw [if_pos rfl]
  exact gsSweep_success_eq step (t * 1024 * 1024) 6 200 f

lemma runIterative_trace (att : ℕ → Option ℕ) (t : ℚ) (baseline : ℕ) (bg : Bool)
    (pre : List ℕ) (gtr : List Pass) :
    (runIterative att t baseline bg pre gtr).trace
      = gtr ++ (runIterative att t baseline bg pre gtr).scanned.map Pass.downsample := by
  simp [runIterative]

lemma runIterative_baselineGs (att : ℕ → Option ℕ) (t : ℚ) (baseline : ℕ) (bg : Bool)
    (pre : List ℕ) (gtr : List Pass) :
    (runIterative att t baseline bg pre gtr).baselineGs = bg := by
  simp [runIterative]

/-- Size and bookkeeping facts about `compress_pdf` on every input: the
final output never exceeds the original; it never exceeds any candidate
produced and measured during the call; it is the original or one of the
candidates; and no more attempt indices are tried than the table has. -/
lemma compress_pdf_facts (env : CompressEnv) (original : ℕ) (tgt : Option ℚ) :
    (compress_pdf env original tgt).output ≤ original
    ∧ (∀ r ∈ (compress_pdf env original tgt).produced,
        (compress_pdf env original tgt).output ≤ r)
    ∧ ((compress_pdf env original tgt).output = original
        ∨ (compress_pdf env original tgt).output ∈ (compress_pdf env original tgt).produced)
    ∧ (compress_pdf env original tgt).scanned.length ≤ attempts.length := by
  simp only [compress_pdf]
  cases hfile : (compress_pdf_ghostscript env.gsAvail env.gsStep
      (some (FileContent.preexisting 0)) (tgt.getD (get_mb original * 0.75))).file with
  | none =>
    obtain ⟨f1, f2, f3, f4, _, _⟩ := runIterative_facts env.attempt
      (tgt.getD (get_mb original * 0.75)) original false []
      (if env.gsAvail then [Pass.externalTool] else []) (by intro p hp; cases hp)
    exact ⟨f1, f2, f3, f4⟩
  | some fc =>
    cases hsucc : (compress_pdf_ghostscript env.gsAvail env.gsStep
        (some (FileContent.preexisting 0)) (tgt.getD (get_mb original * 0.75))).success with
    | false =>
      obtain ⟨f1, f2, f3, f4, _, _⟩ := runIterative_facts env.attempt
        (tgt.getD (get_mb original * 0.75)) original false []
        (if env.gsAvail then [Pass.externalTool] else []) (by intro p hp; cases hp)
      exact ⟨f1, f2, f3, f4⟩
    | true =>
      by_cases hlt : get_mb fc.size < get_mb original
      · by_cases htg : get_mb fc.size ≤ tgt.getD (get_mb original * 0.75)
        · simp only [if_pos hlt, if_pos htg]
          refine ⟨le_of_lt (get_mb_lt_iff.mp hlt), ?_, by simp, by simp⟩
          intro r hr
          obtain rfl : r = fc.size := by simpa using hr
          exact le_refl _
        · simp only [if_pos hlt, if_neg htg]
          obtain ⟨f1, f2, f3, f4, _, _⟩ := runIterative_facts env.attempt
            (tgt.getD (get_mb original * 0.75)) fc.size true [fc.size]
            (if env.gsAvail then [Pass.externalTool] else [])
            (by
              intro p hp
              obtain rfl : p = fc.size := by simpa using hp
              exact le_refl _)
          refine ⟨le_trans f1 (le_of_lt (get_mb_lt_iff.mp hlt)), f2, ?_, f4⟩
          rcases f3 with f3 | f3
          · right; rw [f3]; simp [runIterative]
          · right; exact f3
      · simp only [if_neg hlt]
        obtain ⟨f1, f2, f3, f4, _, _⟩ := runIterative_facts env.attempt
          (tgt.getD (get_mb original * 0.75)) original false [fc.size]
          (if env.gsAvail then [Pass.externalTool] else [])
          (by intro p hp
              obtain rfl : p = fc.size := by simpa using hp
              exact get_mb_le_iff.mp (le_of_not_lt hlt))
        exact ⟨f1, f2, f3, f4⟩

/-! ## Claim theorems -/

/-- C1: for every input document and every positive target size (supplied
or derived), the file `compress_pdf` leaves at `output_path` is no larger
than the original document, and no larger than any candidate result it
produced and measured earlier in the same call.  (The positivity
hypothesis confines the statement to the domain where the source does
not raise `ZeroDivisionError` computing `current_size / target_size_mb`;
the default derived target is positive for every nonempty document.) -/
theorem compress_pdf_never_expands (env : CompressEnv) (original : ℕ) (tgt : Option ℚ)
    (htgt : 0 < tgt.getD (get_mb original * 0.75)) :
    (compress_pdf env original tgt).output ≤ original
    ∧ ∀ r ∈ (compress_pdf env original tgt).produced,
        (compress_pdf env original tgt).output ≤ r :=
  ⟨(compress_pdf_facts env original tgt).1, (compress_pdf_facts env original tgt).2.1⟩

/-- Witness for C1 at a concrete input: no Ghostscript, one attempt
(index 5) produces a 500000-byte file from a 1 MiB original with a
0.25 MB target. -/
theorem compress_pdf_never_expands_witness :
    (0 : ℚ) < (some (1/4 : ℚ)).getD (get_mb 1048576 * 0.75)
    ∧ ((compress_pdf ⟨false, fun _ => none, fun i => if i = 5 then some 500000 else none⟩
          1048576 (some (1/4))).output ≤ 1048576
      ∧ ∀ r ∈ (compress_pdf ⟨false, fun _ => none, fun i => if i = 5 then some 500000 else none⟩
          1048576 (some (1/4))).produced,
          (compress_pdf ⟨false, fun _ => none, fun i => if i = 5 then some 500000 else none⟩
            1048576 (some (1/4))).output ≤ r) :=
  ⟨by norm_num,
   compress_pdf_never_expands ⟨false, fun _ => none, fun i => if i = 5 then some 500000 else none⟩
     1048576 (some (1/4)) (by norm_num)⟩

/-- C2 counterexample: `compress_pdf` performs no lossless structural
re-serialization pass at all — on a concrete run (Ghostscript present,
every invocation failing, 1 MiB original, 2 MB target) the emitted pass
trace contains no structural pass, yet a lossy pass (the external tool)
is invoked. -/
theorem compress_pdf_no_structural_pass_cex :
    Pass.structural ∉ (compress_pdf ⟨true, fun _ => none, fun _ => none⟩ 1048576 (some 2)).trace
    ∧ Pass.externalTool ∈ (compress_pdf ⟨true, fun _ => none, fun _ => none⟩ 1048576 (some 2)).trace := by
  with_unfolding_all decide

/-- C2 (amended): `compress_pdf` performs no lossless structural pass on
any input; its first pass is the (lossy) external tool whenever
Ghostscript is available, and if the external tool's result is smaller
than the original and meets the target, it is returned immediately and
no downsampler attempt is invoked. -/
theorem compress_pdf_external_tool_first :
    (∀ (env : CompressEnv) (original : ℕ) (tgt : Option ℚ),
      Pass.structural ∉ (compress_pdf env original tgt).trace)
    ∧ (∀ (env : CompressEnv) (original : ℕ) (tgt : Option ℚ) (fc : FileContent),
      env.gsAvail = true →
      (compress_pdf_ghostscript env.gsAvail env.gsStep (some (FileContent.preexisting 0))
          (tgt.getD (get_mb original * 0.75))).file = some fc →
      get_mb fc.size < get_mb original →
      get_mb fc.size ≤ tgt.getD (get_mb original * 0.75) →
      (compress_pdf env original tgt).output = fc.size
      ∧ (compress_pdf env original tgt).trace = [Pass.externalTool]) := by
  constructor
  · intro env original tgt
    have hgtr : Pass.structural ∉ (if env.gsAvail then [Pass.externalTool] else []) := by
      cases env.gsAvail <;> simp
    have hmap : ∀ (l : List ℕ), Pass.structural ∉ l.map Pass.downsample := by
      intro l h
      obtain ⟨i, _, hi⟩ := List.mem_map.mp h
      cases hi
    simp only [compress_pdf]
    cases hfile : (compress_pdf_ghostscript env.gsAvail env.gsStep
        (some (FileContent.preexisting 0)) (tgt.getD (get_mb original * 0.75))).file with
    | none =>
      rw [runIterative_trace]
      intro h
      rcases List.mem_append.mp h with h | h
      · exact hgtr h
      · exact hmap _ h
    | some fc =>
      cases hsucc : (compress_pdf_ghostscript env.gsAvail env.gsStep
          (some (FileContent.preexisting 0)) (tgt.getD (get_mb original * 0.75))).success with
      | false =>
        rw [runIterative_trace]
        intro h
        rcases List.mem_append.mp h with h | h
        · exact hgtr h
        · exact hmap _ h
      | true =>
        by_cases hlt : get_mb fc.size < get_mb original
        · by_cases htg : get_mb fc.size ≤ tgt.getD (get_mb original * 0.75)
          · simp only [if_pos hlt, if_pos htg]
            exact hgtr
          · simp only [if_pos hlt, if_neg htg]
            rw [runIterative_trace]
            intro h
            rcases List.mem_append.mp h with h | h
            · exact hgtr h
            · exact hmap _ h
        · simp only [if_neg hlt]
          rw [runIterative_trace]
          intro h
          rcases List.mem_append.mp h with h | h
          · exact hgtr h
          · exact hmap _ h
  · intro env original tgt fc havail hfile hlt htg
    simp only [compress_pdf]
    rw [hfile]
    have hsucc : (compress_pdf_ghostscript env.gsAvail env.gsStep
        (some (FileContent.preexisting 0)) (tgt.getD (get_mb original * 0.75))).success = true := by
      rw [havail] at hfile ⊢
      rw [compress_pdf_ghostscript_success_eq, hfile]
      rfl
    rw [hsucc]
    simp only [if_pos hlt, if_pos htg]
    constructor <;> simp [havail]

/-- Witness for C2 (amended): Ghostscript succeeds at 200 DPI with a
100-byte file for a 1 MiB original and a 1 MB target, so `compress_pdf`
returns it at once and the trace is exactly the external pass. -/
theorem compress_pdf_external_tool_first_witness :
    (compress_pdf_ghostscript true (fun _ => some 100) (some (FileContent.preexisting 0))
        ((some (1 : ℚ)).getD (get_mb 1048576 * 0.75))).file = some (FileContent.written 200 100)
    ∧ ((compress_pdf ⟨true, fun _ => some 100, fun _ => none⟩ 1048576 (some 1)).output = 100
      ∧ (compress_pdf ⟨true, fun _ => some 100, fun _ => none⟩ 1048576 (some 1)).trace
          = [Pass.externalTool]) :=
  ⟨by with_unfolding_all decide,
   compress_pdf_external_tool_first.2 ⟨true, fun _ => some 100, fun _ => none⟩ 1048576 (some 1)
     (FileContent.written 200 100) rfl (by with_unfolding_all decide)
     (by with_unfolding_all decide) (by with_unfolding_all decide)⟩

/-- C8 counterexample: with a 4-byte original, a 1 MB target, and
Ghostscript returning a 6-byte document (which meets the target but is
not smaller than the original), `compress_pdf` does NOT adopt the
Ghostscript result as its working baseline, contrary to the claim's
"smaller than the current best OR meets the target". -/
theorem compress_pdf_gs_meets_target_not_adopted_cex :
    (compress_pdf_ghostscript true (fun _ => some 6) (some (FileContent.preexisting 0))
        ((some (1 : ℚ)).getD (get_mb 4 * 0.75))).file
      = some (FileContent.written 200 6)
    ∧ get_mb 6 ≤ 1
    ∧ ¬(get_mb 6 < get_mb 4)
    ∧ (compress_pdf ⟨true, fun _ => some 6, fun _ => none⟩ 4 (some 1)).baselineGs = false
    ∧ (compress_pdf ⟨true, fun _ => some 6, fun _ => none⟩ 4 (some 1)).output = 4 := by
  refine ⟨?_, ?_, ?_, ?_, ?_⟩ <;> with_unfolding_all decide

/-- C8 (amended): the Ghostscript result is adopted as the working
baseline exactly when the sweep reported success, produced a file, and
that file is strictly smaller than the original — meeting the target
alone does not cause adoption. -/
theorem compress_pdf_gs_adoption_iff (env : CompressEnv) (original : ℕ) (tgt : Option ℚ) :
    (compress_pdf env original tgt).baselineGs = true
      ↔ ((compress_pdf_ghostscript env.gsAvail env.gsStep (some (FileContent.preexisting 0))
            (tgt.getD (get_mb original * 0.75))).success = true
        ∧ ∃ fc, (compress_pdf_ghostscript env.gsAvail env.gsStep (some (FileContent.preexisting 0))
            (tgt.getD (get_mb original * 0.75))).file = some fc
          ∧ get_mb fc.size < get_mb original) := by
  simp only [compress_pdf]
  cases hfile : (compress_pdf_ghostscript env.gsAvail env.gsStep
      (some (FileContent.preexisting 0)) (tgt.getD (get_mb original * 0.75))).file with
  | none =>
    rw [runIterative_baselineGs]
    simp
  | some fc =>
    cases hsucc : (compress_pdf_ghostscript env.gsAvail env.gsStep
        (some (FileContent.preexisting 0)) (tgt.getD (get_mb original * 0.75))).success with
    | false =>
      rw [runIterative_baselineGs]
      simp
    | true =>
      by_cases hlt : get_mb fc.size < get_mb original
      · by_cases htg : get_mb fc.size ≤ tgt.getD (get_mb original * 0.75)
        · simp only [if_pos hlt, if_pos htg]
          simp [hlt]
        · simp only [if_pos hlt, if_neg htg]
          rw [runIterative_baselineGs]
          simp [hlt]
      · simp only [if_neg hlt]
        rw [runIterative_baselineGs]
        simp [hlt]

/-- C9: for every input and every positive target — including
unreachable ones such as a single byte — the iterative refinement tries
at most the 22 entries of the fixed attempt table, and `compress_pdf`
finalizes with the smallest document it measured: the output is no
larger than the original and every produced candidate, and is itself the
original or one of the candidates.  (Termination is inherent: the model
of the source loop is a total function over the fixed table.) -/
theorem compress_pdf_bounded_best_effort (env : CompressEnv) (original : ℕ) (tgt : Option ℚ)
    (htgt : 0 < tgt.getD (get_mb original * 0.75)) :
    (compress_pdf env original tgt).scanned.length ≤ 22
    ∧ attempts.length = 22
    ∧ (compress_pdf env original tgt).output ≤ original
    ∧ (∀ r ∈ (compress_pdf env original tgt).produced,
        (compress_pdf env original tgt).output ≤ r)
    ∧ ((compress_pdf env original tgt).output = original
        ∨ (compress_pdf env original tgt).output ∈ (compress_pdf env original tgt).produced) := by
  obtain ⟨f1, f2, f3, f4⟩ := compress_pdf_facts env original tgt
  exact ⟨by simpa using f4, by decide, f1, f2, f3⟩

/-- Witness for C9 at a concrete unreachable target of one byte
(`1/1048576` MB): no Ghostscript available, every pikepdf attempt
produces a 900000-byte file from a 1 MiB original. -/
theorem compress_pdf_bounded_best_effort_witness :
    (0 : ℚ) < (some (1/1048576 : ℚ)).getD (get_mb 1048576 * 0.75)
    ∧ ((compress_pdf ⟨false, fun _ => none, fun _ => some 900000⟩ 1048576
          (some (1/1048576))).scanned.length ≤ 22
      ∧ attempts.length = 22
      ∧ (compress_pdf ⟨false, fun _ => none, fun _ => some 900000⟩ 1048576
          (some (1/1048576))).output ≤ 1048576
      ∧ (∀ r ∈ (compress_pdf ⟨false, fun _ => none, fun _ => some 900000⟩ 1048576
          (some (1/1048576))).produced,
          (compress_pdf ⟨false, fun _ => none, fun _ => some 900000⟩ 1048576
            (some (1/1048576))).output ≤ r)
      ∧ ((compress_pdf ⟨false, fun _ => none, fun _ => some 900000⟩ 1048576
            (some (1/1048576))).output = 1048576
          ∨ (compress_pdf ⟨false, fun _ => none, fun _ => some 900000⟩ 1048576
              (some (1/1048576))).output
            ∈ (compress_pdf ⟨false, fun _ => none, fun _ => some 900000⟩ 1048576
                (some (1/1048576))).produced)) :=
  ⟨by norm_num,
   compress_pdf_bounded_best_effort ⟨false, fun _ => none, fun _ => some 900000⟩ 1048576
     (some (1/1048576)) (by norm_num)⟩

/-- C3 counterexample: on a sweep where the 200 DPI step successfully
produces a 100-byte file and every later step successfully produces a
300-byte file, with a 1-byte target (never met), the function returns
the 300-byte file of the last step, not the smallest (100-byte) document
produced during the sweep. -/
theorem gs_returns_last_not_smallest_cex :
    (compress_pdf_ghostscript true (fun d => if d = 200 then some 100 else some 300)
        (some (FileContent.preexisting 0)) (1/1048576)).file
      = some (FileContent.written 75 300)
    ∧ (fun d => if d = 200 then some 100 else some 300) 200 = some 100
    ∧ ¬((300 : ℕ) ≤ 100)
    ∧ (compress_pdf_ghostscript true (fun d => if d = 200 then some 100 else some 300)
        (some (FileContent.preexisting 0)) (1/1048576)).success = true := by
  refine ⟨?_, ?_, ?_, ?_⟩ <;> with_unfolding_all decide

/-- C3 (amended): when the sweep completes without any resolution
producing a file that meets the target, `compress_pdf_ghostscript`
leaves at `output_path` the file written by the LAST successful
invocation (the lowest resolution that succeeded) — the smallest result
is not tracked (`min_size_achieved` is dead) — and reports success iff
some file exists at the path, including one that predates the sweep. -/
theorem gs_returns_last_write (step : ℕ → Option ℕ) (file0 : Option FileContent) (tmb : ℚ)
    (h : ∀ d ∈ sweepList 6 200, stepMisses step (tmb * 1024 * 1024) d) :
    (compress_pdf_ghostscript true step file0 tmb).file
      = lastWrite step [200, 175, 150, 125, 100, 75] file0
    ∧ (compress_pdf_ghostscript true step file0 tmb).success
      = (lastWrite step [200, 175, 150, 125, 100, 75] file0).isSome := by
  have key := gsSweep_no_target step (tmb * 1024 * 1024) 6 200 file0 h
  unfold compress_pdf_ghostscript
  rw [if_pos rfl, key, sweepList_full]
  exact ⟨rfl, rfl⟩

/-- Witness for C3 (amended) on the environment of the counterexample:
the 1-byte target is never met, and the final file is the last write
(the 300-byte file of the 75 DPI step). -/
theorem gs_returns_last_write_witness :
    (∀ d ∈ sweepList 6 200, stepMisses (fun d => if d = 200 then some 100 else some 300)
        ((1/1048576 : ℚ) * 1024 * 1024) d)
    ∧ ((compress_pdf_ghostscript true (fun d => if d = 200 then some 100 else some 300)
          (some (FileContent.preexisting 0)) (1/1048576)).file
        = lastWrite (fun d => if d = 200 then some 100 else some 300)
            [200, 175, 150, 125, 100, 75] (some (FileContent.preexisting 0))
      ∧ (compress_pdf_ghostscript true (fun d => if d = 200 then some 100 else some 300)
          (some (FileContent.preexisting 0)) (1/1048576)).success
        = (lastWrite (fun d => if d = 200 then some 100 else some 300)
            [200, 175, 150, 125, 100, 75] (some (FileContent.preexisting 0))).isSome) :=
  ⟨by with_unfolding_all decide,
   gs_returns_last_write (fun d => if d = 200 then some 100 else some 300)
     (some (FileContent.preexisting 0)) (1/1048576) (by with_unfolding_all decide)⟩

/-- C5 counterexample: with every invocation failing (so the sweep runs
to its end), the visited resolutions are exactly 200, 175, 150, 125,
100, 75: there is no step at resolution 72, so the sweep does not end
with (or ever include) a 72 DPI step. -/
theorem gs_sweep_never_reaches_72_cex :
    (compress_pdf_ghostscript true (fun _ => none)
        (some (FileContent.preexisting 0)) 1).dpis = [200, 175, 150, 125, 100, 75]
    ∧ 72 ∉ (compress_pdf_ghostscript true (fun _ => none)
        (some (FileContent.preexisting 0)) 1).dpis := by
  refine ⟨?_, ?_⟩ <;> with_unfolding_all decide

/-- C5 (amended): the sweep iterates the resolution parameter from 200
downward by 25 while it is at least 72: the visited resolutions always
form an initial segment of [200, 175, 150, 125, 100, 75] — the whole
segment when no step meets the target — and a step at resolution 72
itself never occurs (72 is only the loop's lower bound). -/
theorem gs_sweep_resolution_steps (step : ℕ → Option ℕ) (file0 : Option FileContent) (tmb : ℚ) :
    (compress_pdf_ghostscript true step file0 tmb).dpis <+: [200, 175, 150, 125, 100, 75]
    ∧ ((∀ d ∈ sweepList 6 200, stepMisses step (tmb * 1024 * 1024) d) →
        (compress_pdf_ghostscript true step file0 tmb).dpis = [200, 175, 150, 125, 100, 75])
    ∧ 72 ∉ (compress_pdf_ghostscript true step file0 tmb).dpis := by
  have hp := gsSweep_dpis_prefix step (tmb * 1024 * 1024) 6 200 file0
  rw [sweepList_full] at hp
  unfold compress_pdf_ghostscript
  rw [if_pos rfl]
  refine ⟨hp, ?_, ?_⟩
  · intro h
    rw [gsSweep_no_target step (tmb * 1024 * 1024) 6 200 file0 h, sweepList_full]
  · intro h72
    have := hp.subset h72
    simp at this

/-- Witness for C5 (amended): with every invocation failing and a 1 MB
target, the sweep visits the full resolution list. -/
theorem gs_sweep_resolution_steps_witness :
    (∀ d ∈ sweepList 6 200, stepMisses (fun _ => none) ((1 : ℚ) * 1024 * 1024) d)
    ∧ (compress_pdf_ghostscript true (fun _ => none) none 1).dpis
        = [200, 175, 150, 125, 100, 75] :=
  ⟨by with_unfolding_all decide,
   (gs_sweep_resolution_steps (fun _ => none) none 1).2.1 (by with_unfolding_all decide)⟩

/-- C4 (bug record): `compress_image` sets `min_quality = 10`, yet when
no quality from 85 down to 10 meets the target the loop leaves
`quality = 5` and the function performs one final save at quality 5,
below its own floor: on an image whose JPEG encoding weighs 1048576
bytes at every quality, with a 0.5 MB target, the written qualities are
85, 80, …, 10 and then 5, and the file left at `output_path` is encoded
at quality 5. -/
theorem compress_image_writes_below_floor :
    compress_image (fun _ => 1048576) (some (1/2))
      = (5, [85, 80, 75, 70, 65, 60, 55, 50, 45, 40, 35, 30, 25, 20, 15, 10, 5]) := by
  with_unfolding_all decide

/-- C10: with Ghostscript available, the sweep reports success exactly
when the output file exists at its end, regardless of whether the final
step's invocation succeeded; in particular, when the 200 DPI step writes
a file that misses the target and every later step's subprocess fails,
the stale 200 DPI output remains at `output_path` and the function still
reports success with that result. -/
theorem gs_success_iff_output_exists :
    (∀ (step : ℕ → Option ℕ) (file0 : Option FileContent) (tmb : ℚ),
      (compress_pdf_ghostscript true step file0 tmb).success
        = (compress_pdf_ghostscript true step file0 tmb).file.isSome)
    ∧ (∀ (step : ℕ → Option ℕ) (file0 : Option FileContent) (tmb : ℚ) (w : ℕ),
      step 200 = some w → ¬((w : ℚ) ≤ tmb * 1024 * 1024) →
      step 175 = none → step 150 = none → step 125 = none →
      step 100 = none → step 75 = none →
      (compress_pdf_ghostscript true step file0 tmb).file = some (FileContent.written 200 w)
      ∧ (compress_pdf_ghostscript true step file0 tmb).success = true) := by
  constructor
  · intro step file0 tmb
    exact compress_pdf_ghostscript_success_eq step file0 tmb
  · intro step file0 tmb w h200 hw h175 h150 h125 h100 h75
    have hmiss : ∀ d ∈ sweepList 6 200, stepMisses step (tmb * 1024 * 1024) d := by
      rw [sweepList_full]
      intro d hd
      fin_cases hd <;>
        simp [stepMisses, h200, hw, h175, h150, h125, h100, h75]
    have hlast : lastWrite step (sweepList 6 200) file0
        = some (FileContent.written 200 w) := by
      rw [sweepList_full]
      simp [lastWrite, h200, h175, h150, h125, h100, h75]
    have key := gsSweep_no_target step (tmb * 1024 * 1024) 6 200 file0 hmiss
    unfold compress_pdf_ghostscript
    rw [if_pos rfl, key, hlast]
    exact ⟨rfl, rfl⟩

/-- Witness for C10: the 200 DPI step writes a 300-byte file that misses
a 1-byte target, every later step fails; the function reports success
with the stale 200 DPI output. -/
theorem gs_success_iff_output_exists_witness :
    ((fun d => if d = 200 then some 300 else none) 200 = some (300 : ℕ))
    ∧ ¬(((300 : ℕ) : ℚ) ≤ (1/1048576 : ℚ) * 1024 * 1024)
    ∧ ((compress_pdf_ghostscript true (fun d => if d = 200 then some 300 else none)
          none (1/1048576)).file = some (FileContent.written 200 300)
      ∧ (compress_pdf_ghostscript true (fun d => if d = 200 then some 300 else none)
          none (1/1048576)).success = true) :=
  ⟨rfl, by with_unfolding_all decide,
   gs_success_iff_output_exists.2 (fun d => if d = 200 then some 300 else none)
     none (1/1048576) 300 rfl (by with_unfolding_all decide)
     (by decide) (by decide) (by decide) (by decide) (by decide)⟩

/-- C6: in a downsampling pass with `scale_factor ∈ (0, 1]` and
`quality ∈ [1, 100]`, every decodable embedded image reference either
keeps its original object — exactly when a computed dimension
`int(dim * scale_factor)` falls below 10 pixels — or is repointed to a
replacement stream whose declared dimensions are exactly
`⌊width * scale_factor⌋ × ⌊height * scale_factor⌋`. -/
theorem downsample_dims_floor (cfg : DsCfg) (pages : List (List ObjGen)) (g : ObjGen) (s : Slot)
    (hs0 : 0 < cfg.scale) (hs1 : cfg.scale ≤ 1)
    (hq1 : 1 ≤ cfg.quality) (hq2 : cfg.quality ≤ 100)
    (himg : cfg.isImage g = true)
    (hdec : (cfg.store g).decodable = true)
    (hmem : (g, s) ∈ ((_downsample_images cfg pages passInit).2).flatten) :
    (newDim (cfg.store g).width cfg.scale < 10 ∨ newDim (cfg.store g).height cfg.scale < 10 →
      s = Slot.orig g)
    ∧ (10 ≤ newDim (cfg.store g).width cfg.scale → 10 ≤ newDim (cfg.store g).height cfg.scale →
      ∃ sid ns, s = Slot.repl sid
        ∧ ns ∈ (_downsample_images cfg pages passInit).1.streams
        ∧ ns.sid = sid
        ∧ ns.width = newDim (cfg.store g).width cfg.scale
        ∧ ns.height = newDim (cfg.store g).height cfg.scale) := by
  obtain ⟨⟨i1, _i2, i3⟩, -⟩ := downsample_inv cfg pages passInit [] (inv_init cfg)
  have hslot := i3 (g, s) (by simpa using hmem)
  constructor
  · intro hlt
    have hres : resampleImage (cfg.store g) cfg.scale cfg.quality = .unchanged := by
      unfold resampleImage
      rw [if_neg (by simp [hdec]), if_pos hlt]
    unfold slotOk at hslot
    rw [if_pos himg] at hslot
    simpa only [hres] using hslot
  · intro hw hh
    have hres : resampleImage (cfg.store g) cfg.scale cfg.quality
        = .replaced (newDim (cfg.store g).width cfg.scale)
            (newDim (cfg.store g).height cfg.scale) (cfg.store g).gray cfg.quality := by
      unfold resampleImage
      rw [if_neg (by simp [hdec]),
        if_neg (not_or.mpr ⟨Nat.not_lt.mpr hw, Nat.not_lt.mpr hh⟩)]
    unfold slotOk at hslot
    rw [if_pos himg] at hslot
    simp only [hres] at hslot
    obtain ⟨sid, hsid, rfl⟩ := hslot
    obtain ⟨⟨w', h', gr', q', hres', hmem'⟩, -⟩ := i1 g sid hsid
    rw [hres] at hres'
    injection hres' with ew eh egr eq'
    exact ⟨sid, ⟨sid, w', h', gr', q'⟩, rfl, hmem', rfl, ew.symm, eh.symm⟩

/-- Witness for C6: one page holding one decodable 100×50 RGB image,
scale 1/2, quality 80: the reference is repointed to a stream of
declared dimensions 50×25. -/
theorem downsample_dims_floor_witness :
    ((0 : ℚ) < 1/2 ∧ (1/2 : ℚ) ≤ 1 ∧ (1 : ℕ) ≤ 80 ∧ (80 : ℕ) ≤ 100
      ∧ (0, Slot.repl 0) ∈ ((_downsample_images
          ⟨fun _ => ⟨100, 50, false, true⟩, fun _ => true, 1/2, 80⟩ [[0]] passInit).2).flatten)
    ∧ ((newDim 100 (1/2) < 10 ∨ newDim 50 (1/2) < 10 → Slot.repl 0 = Slot.orig 0)
      ∧ (10 ≤ newDim 100 (1/2) → 10 ≤ newDim 50 (1/2) →
        ∃ sid ns, Slot.repl 0 = Slot.repl sid
          ∧ ns ∈ (_downsample_images
              ⟨fun _ => ⟨100, 50, false, true⟩, fun _ => true, 1/2, 80⟩ [[0]] passInit).1.streams
          ∧ ns.sid = sid ∧ ns.width = newDim 100 (1/2) ∧ ns.height = newDim 50 (1/2))) :=
  ⟨⟨by norm_num, by norm_num, by norm_num, by norm_num, by with_unfolding_all decide⟩,
   downsample_dims_floor ⟨fun _ => ⟨100, 50, false, true⟩, fun _ => true, 1/2, 80⟩ [[0]]
     0 (Slot.repl 0) (by norm_num) (by norm_num) (by norm_num) (by norm_num) rfl rfl
     (by with_unfolding_all decide)⟩

/-- C7: in a single downsampling pass, an image objgen that occurs among
the page references, is decodable, and whose scaled dimensions stay at
or above 10 pixels, is JPEG re-encoded exactly once; one stream id is
registered for it in `seen_images` and every reference sharing that
objgen ends up repointed to that single replacement stream. -/
theorem downsample_dedup_once (cfg : DsCfg) (pages : List (List ObjGen)) (g : ObjGen)
    (himg : cfg.isImage g = true)
    (hg : g ∈ pages.flatten)
    (hdec : (cfg.store g).decodable = true)
    (hw : 10 ≤ newDim (cfg.store g).width cfg.scale)
    (hh : 10 ≤ newDim (cfg.store g).height cfg.scale) :
    (_downsample_images cfg pages passInit).1.encodes.count g = 1
    ∧ ∃ sid, seenLookup (_downsample_images cfg pages passInit).1.seen g = some sid
        ∧ ∀ s, (g, s) ∈ ((_downsample_images cfg pages passInit).2).flatten
            → s = Slot.repl sid := by
  obtain ⟨⟨i1, _i2, i3⟩, hmap⟩ := downsample_inv cfg pages passInit [] (inv_init cfg)
  have hres : resampleImage (cfg.store g) cfg.scale cfg.quality
      = .replaced (newDim (cfg.store g).width cfg.scale)
          (newDim (cfg.store g).height cfg.scale) (cfg.store g).gray cfg.quality := by
    unfold resampleImage
    rw [if_neg (by simp [hdec]),
      if_neg (not_or.mpr ⟨Nat.not_lt.mpr hw, Nat.not_lt.mpr hh⟩)]
  have hex : ∃ s, (g, s) ∈ ((_downsample_images cfg pages passInit).2).flatten := by
    rw [← hmap] at hg
    obtain ⟨⟨p1, p2⟩, hp, hfst⟩ := List.mem_map.mp hg
    obtain rfl : p1 = g := hfst
    exact ⟨p2, hp⟩
  obtain ⟨s0, hs0⟩ := hex
  have hslot := i3 (g, s0) (by simpa using hs0)
  unfold slotOk at hslot
  rw [if_pos himg] at hslot
  simp only [hres] at hslot
  obtain ⟨sid, hsid, -⟩ := hslot
  refine ⟨(i1 g sid hsid).2, sid, hsid, ?_⟩
  intro s hsmem
  have hslot2 := i3 (g, s) (by simpa using hsmem)
  unfold slotOk at hslot2
  rw [if_pos himg] at hslot2
  simp only [hres] at hslot2
  obtain ⟨sid', hsid', rfl⟩ := hslot2
  rw [hsid] at hsid'
  injection hsid' with e
  rw [e]

/-- Witness for C7: the same decodable 100×100 image objgen referenced
from five pages, scale 1/2, quality 60: one re-encode, one registered
stream, all five references repointed to it. -/
theorem downsample_dedup_once_witness :
    ((7 : ObjGen) ∈ ([[7], [7], [7], [7], [7]] : List (List ObjGen)).flatten
      ∧ (10 : ℕ) ≤ newDim 100 (1/2) ∧ (10 : ℕ) ≤ newDim 100 (1/2))
    ∧ ((_downsample_images ⟨fun _ => ⟨100, 100, false, true⟩, fun _ => true, 1/2, 60⟩
          [[7], [7], [7], [7], [7]] passInit).1.encodes.count 7 = 1
      ∧ ∃ sid, seenLookup (_downsample_images
            ⟨fun _ => ⟨100, 100, false, true⟩, fun _ => true, 1/2, 60⟩
            [[7], [7], [7], [7], [7]] passInit).1.seen 7 = some sid
          ∧ ∀ s, (7, s) ∈ ((_downsample_images
              ⟨fun _ => ⟨100, 100, false, true⟩, fun _ => true, 1/2, 60⟩
              [[7], [7], [7], [7], [7]] passInit).2).flatten → s = Slot.repl sid) :=
  ⟨⟨by decide, by with_unfolding_all decide, by with_unfolding_all decide⟩,
   downsample_dedup_once ⟨fun _ => ⟨100, 100, false, true⟩, fun _ => true, 1/2, 60⟩
     [[7], [7], [7], [7], [7]] 7 rfl (by decide) rfl
     (by with_unfolding_all decide) (by with_unfolding_all decide)⟩

end PdfBackend
